import Mathlib

/-!
Verification of the map tile bulk downloader (src/main.py).

The development shallow-embeds the program: the Web-Mercator projection
`latlon2xy` (lines 34-47) over the real numbers, the per-zoom task planner
from `main` (lines 104-131) as a pure list program parameterised by the
on-disk dedup check, the per-task fetch `download_task` (lines 49-63) and
the as-completed result loop (lines 136-151) as explicit state passing over
an abstract file store, and the TileSet entries emitted by
`generate_mercator_xml` (lines 83-85) over the rationals.
-/

namespace DownLoadMap

/-- Python `int()` applied to a real value: truncation toward zero
(floor for nonnegative arguments, ceiling for negative ones). -/
noncomputable def pyTrunc (r : ℝ) : ℤ := if 0 ≤ r then ⌊r⌋ else ⌈r⌉

/-- The latitude clamp of line 40: `lat = max(-85.0511, min(85.0511, lat))`. -/
noncomputable def clampLat (lat : ℝ) : ℝ := max (-85.0511) (min 85.0511 lat)

/-- The argument passed to `math.log` in line 44:
`math.tan(rad) + (1 / math.cos(rad))`. -/
noncomputable def logArg (rad : ℝ) : ℝ := Real.tan rad + 1 / Real.cos rad

/-- Lines 42-46, the guarded y computation: Python `math.log` raises
`ValueError` exactly on nonpositive arguments, and the `except ValueError`
branch substitutes `y_val = 0`; otherwise
`y_val = (1.0 - math.log(...) / math.pi) / 2.0 * n`. -/
noncomputable def yVal (rad n : ℝ) : ℝ :=
  if logArg rad ≤ 0 then 0 else (1 - Real.log (logArg rad) / Real.pi) / 2 * n

/-- `latlon2xy(lat, lon, z)` from lines 34-47: `n = 2.0 ** z`,
`x_val = (lon + 180.0) / 360.0 * n`, latitude clamped before any
trigonometric use, and the pair truncated by Python `int()`. -/
noncomputable def latlon2xy (lat lon : ℝ) (z : ℕ) : ℤ × ℤ :=
  let n : ℝ := 2 ^ z
  let xval := (lon + 180) / 360 * n
  let lat2 := clampLat lat
  (pyTrunc xval, pyTrunc (yVal (lat2 * Real.pi / 180) n))

/-- Python `range(a, b + 1)` over integers: the list `a, a+1, ..., b`,
empty when `b < a`. -/
def intRange (a b : ℤ) : List ℤ := (List.range (b + 1 - a).toNat).map fun i : ℕ => a + (i : ℤ)

/-- Python `range(a, b)` over naturals: the list `a, a+1, ..., b-1`. -/
def pyRange (a b : ℕ) : List ℕ := (List.range (b - a)).map fun i => a + i

/-- The configured bounding box `BOUNDS = (-180, -85.05, 180, 85.05)`
as `(min_lon, min_lat, max_lon, max_lat)` (line 18). -/
noncomputable def BOUNDS : ℝ × ℝ × ℝ × ℝ := (-180, -85.05, 180, 85.05)

/-- A planned download task: the tuple `(x, y_google, z, file_path)` appended
in line 131.  The destination path `SAVE_PATH/{z}/{x}/{y_tms}.jpg` is
represented by its three numeric path components `(z, x, y_tms)`; distinct
component triples render to distinct path strings. -/
structure FetchTask where
  x : ℤ
  yGoogle : ℤ
  z : ℕ
  filePath : ℕ × ℤ × ℤ
deriving DecidableEq

/-- The clamped x tile range of a zoom level, lines 108-109 and 114:
`x_min` is projected from `(max_lat, min_lon)`, `x_max` from
`(min_lat, max_lon)`, then `x_min = max(0, x_min)` and
`x_max = min(n_tiles - 1, x_max)`. -/
noncomputable def xBounds (bounds : ℝ × ℝ × ℝ × ℝ) (z : ℕ) : ℤ × ℤ :=
  (max 0 (latlon2xy bounds.2.2.2 bounds.1 z).1,
   min (2 ^ z - 1) (latlon2xy bounds.2.1 bounds.2.2.1 z).1)

/-- The clamped native y tile range of a zoom level, lines 110-111 and
115-116: the two corner projections are ordered with min/max and then
clamped into `[0, n_tiles - 1]`. -/
noncomputable def yBounds (bounds : ℝ × ℝ × ℝ × ℝ) (z : ℕ) : ℤ × ℤ :=
  (max 0 (min (latlon2xy bounds.2.2.2 bounds.1 z).2 (latlon2xy bounds.2.1 bounds.2.2.1 z).2),
   min (2 ^ z - 1)
     (max (latlon2xy bounds.2.2.2 bounds.1 z).2 (latlon2xy bounds.2.1 bounds.2.2.1 z).2))

/-- The tasks one zoom level contributes, lines 121-131: for each `x` in the
clamped x range and each `y_google` in the clamped y range, the stored row is
`y_tms = (2 ** z - 1) - y_google`, and a task is appended exactly when the
destination file is not already on disk. -/
noncomputable def planZoom (bounds : ℝ × ℝ × ℝ × ℝ) (onDisk : ℕ × ℤ × ℤ → Bool) (z : ℕ) :
    List FetchTask :=
  (intRange (xBounds bounds z).1 (xBounds bounds z).2).flatMap fun x =>
    (intRange (yBounds bounds z).1 (yBounds bounds z).2).filterMap fun yG =>
      let fp : ℕ × ℤ × ℤ := (z, x, 2 ^ z - 1 - yG)
      if onDisk fp then none else some ⟨x, yG, z, fp⟩

/-- The whole planning pass, lines 104-131: zoom levels are iterated in
Python `range(zMin, zMax)` order (the source uses `ZOOM_LEVELS = range(0, 9)`). -/
noncomputable def plan (bounds : ℝ × ℝ × ℝ × ℝ) (onDisk : ℕ × ℤ × ℤ → Bool) (zMin zMax : ℕ) :
    List FetchTask :=
  (pyRange zMin zMax).flatMap (planZoom bounds onDisk)

/-- Bytes of an HTTP response body (`r.content`). -/
abbrev Bytes := List ℕ

/-- The on-disk tile tree: maps a destination path (by its numeric
components) to the bytes written there, `none` when the file is absent. -/
def FileStore := (ℕ × ℤ × ℤ) → Option Bytes

/-- The environment one task execution runs against: either `session.get`
raises a transport-level exception, or it returns a response with a status
code and body, in which case the file write performed on status 200 may
itself raise an `OSError`.  Both exception paths are caught by the
`except Exception` of line 62. -/
inductive TaskEnv where
  | netFailure : TaskEnv
  | response (status : ℕ) (body : Bytes) (writeFails : Bool) : TaskEnv

/-- `download_task` from lines 49-63: status 200 writes the response bytes to
the destination path and returns 1; status 404 or 400 returns 0 with no
write; any other status returns -1; any exception (transport fault, or a
filesystem fault while opening/writing the destination) is caught and
returns -1 with no write. -/
def download_task (env : TaskEnv) (fs : FileStore) (t : FetchTask) : ℤ × FileStore :=
  match env with
  | .netFailure => (-1, fs)
  | .response status body writeFails =>
    if status = 200 then
      if writeFails then (-1, fs)
      else (1, fun p => if p = t.filePath then some body else fs p)
    else if status = 404 ∨ status = 400 then (0, fs)
    else (-1, fs)

/-- One step of the as-completed result loop, lines 143-145: one more future
counted, `downloaded_count` incremented exactly when the result is 1, and
the file store threaded through. -/
def execStep (env : FetchTask → TaskEnv) (st : ℕ × ℕ × FileStore) (t : FetchTask) :
    ℕ × ℕ × FileStore :=
  let r := download_task (env t) st.2.2 t
  (st.1 + 1, (if r.1 = 1 then st.2.1 + 1 else st.2.1), r.2)

/-- The fetch executor, lines 136-151: every planned task is submitted to the
pool exactly once (`futures = {executor.submit(download_task, task): task for
task in tasks}`) and its result folded into the aggregate counters.  Task
outcomes are independent, so the aggregate is the fold of `execStep`;
returns `(attempted, downloaded_count, final file store)`. -/
def execute (env : FetchTask → TaskEnv) (fs : FileStore) (tasks : List FetchTask) :
    ℕ × ℕ × FileStore :=
  tasks.foldl (execStep env) (0, 0, fs)

/-- `initial_res = 156543.03392804062` from line 71 of
`generate_mercator_xml`, as an exact rational. -/
def initial_res : ℚ := 156543.03392804062

/-- The `<TileSet>` entries emitted by the loop of lines 83-85: one entry per
zoom level in `range(min_zoom, max_zoom + 1)`, with `order = z` and
`units-per-pixel = initial_res / (2 ** z)`. -/
def tileSetEntries (min_zoom max_zoom : ℕ) : List (ℕ × ℚ) :=
  (pyRange min_zoom (max_zoom + 1)).map fun z => (z, initial_res / 2 ^ z)

/-! ### Helper lemmas about the executor fold -/

lemma execStep_def (env : FetchTask → TaskEnv) (st : ℕ × ℕ × FileStore) (t : FetchTask) :
    execStep env st t =
      (st.1 + 1,
       (if (download_task (env t) st.2.2 t).1 = 1 then st.2.1 + 1 else st.2.1),
       (download_task (env t) st.2.2 t).2) := rfl

lemma foldl_execStep_fst (env : FetchTask → TaskEnv) (tasks : List FetchTask) :
    ∀ st : ℕ × ℕ × FileStore, (tasks.foldl (execStep env) st).1 = st.1 + tasks.length := by
  induction tasks with
  | nil => intro st; simp
  | cons t ts ih =>
      intro st
      rw [List.foldl_cons, ih]
      simp only [execStep, List.length_cons]
      omega

lemma foldl_execStep_snd_le (env : FetchTask → TaskEnv) (tasks : List FetchTask) :
    ∀ st : ℕ × ℕ × FileStore,
      (tasks.foldl (execStep env) st).2.1 ≤ st.2.1 + tasks.length := by
  induction tasks with
  | nil => intro st; simp
  | cons t ts ih =>
      intro st
      rw [List.foldl_cons]
      refine (ih _).trans ?_
      simp only [execStep, List.length_cons]
      split <;> omega

lemma execute_attempted (env : FetchTask → TaskEnv) (fs : FileStore)
    (tasks : List FetchTask) : (execute env fs tasks).1 = tasks.length := by
  simpa using foldl_execStep_fst env tasks (0, 0, fs)

lemma foldl_execStep_404 (body : Bytes) (tasks : List FetchTask) :
    ∀ st : ℕ × ℕ × FileStore,
      tasks.foldl (execStep fun _ => .response 404 body false) st =
        (st.1 + tasks.length, st.2.1, st.2.2) := by
  induction tasks with
  | nil => intro st; simp
  | cons t ts ih =>
      intro st
      rw [List.foldl_cons, ih]
      have hd : download_task (.response 404 body false) st.2.2 t = (0, st.2.2) := rfl
      simp only [execStep_def, hd, List.length_cons]
      norm_num
      omega

lemma foldl_execStep_200 (body : Bytes) (tasks : List FetchTask) :
    ∀ st : ℕ × ℕ × FileStore,
      (tasks.foldl (execStep fun _ => .response 200 body false) st).2.1 =
          st.2.1 + tasks.length ∧
      ∀ p, (tasks.foldl (execStep fun _ => .response 200 body false) st).2.2 p =
          if p ∈ tasks.map FetchTask.filePath then some body else st.2.2 p := by
  induction tasks with
  | nil => intro st; simp
  | cons t ts ih =>
      intro st
      rw [List.foldl_cons]
      have hd : download_task (.response 200 body false) st.2.2 t =
          (1, fun p => if p = t.filePath then some body else st.2.2 p) := rfl
      refine ⟨((ih _).1).trans ?_, fun p => ((ih _).2 p).trans ?_⟩
      · simp only [execStep_def, hd, List.length_cons]
        norm_num
        omega
      · simp only [execStep_def, hd, List.map_cons, List.mem_cons]
        by_cases hmem : p ∈ ts.map FetchTask.filePath
        · simp [hmem]
        · by_cases hp : p = t.filePath <;> simp [hmem, hp]

/-! ### Helper lemmas about the planner lists -/

lemma mem_intRange {lo hi a : ℤ} : a ∈ intRange lo hi ↔ lo ≤ a ∧ a ≤ hi := by
  rw [intRange]
  simp only [List.mem_map, List.mem_range]
  constructor
  · rintro ⟨i, hi', rfl⟩
    omega
  · rintro ⟨h1, h2⟩
    exact ⟨(a - lo).toNat, by omega, by omega⟩

lemma intRange_nodup (lo hi : ℤ) : (intRange lo hi).Nodup := by
  rw [intRange]
  exact List.Nodup.map (fun i j h => by omega) (List.nodup_range _)

lemma intRange_eq_nil {lo hi : ℤ} (h : hi < lo) : intRange lo hi = [] := by
  have h0 : (hi + 1 - lo).toNat = 0 := by omega
  simp [intRange, h0]

lemma mem_pyRange {a b z : ℕ} : z ∈ pyRange a b ↔ a ≤ z ∧ z < b := by
  rw [pyRange]
  simp only [List.mem_map, List.mem_range]
  constructor
  · rintro ⟨i, hi', rfl⟩
    omega
  · rintro ⟨h1, h2⟩
    exact ⟨z - a, by omega, by omega⟩

lemma pyRange_nodup (a b : ℕ) : (pyRange a b).Nodup := by
  rw [pyRange]
  exact List.Nodup.map (fun i j h => by omega) (List.nodup_range _)

lemma planZoom_task_fields {bounds : ℝ × ℝ × ℝ × ℝ} {onDisk : ℕ × ℤ × ℤ → Bool} {z : ℕ}
    {t : FetchTask} (ht : t ∈ planZoom bounds onDisk z) :
    t.z = z ∧ t.filePath = (z, t.x, 2 ^ z - 1 - t.yGoogle) ∧
    (xBounds bounds z).1 ≤ t.x ∧ t.x ≤ (xBounds bounds z).2 ∧
    (yBounds bounds z).1 ≤ t.yGoogle ∧ t.yGoogle ≤ (yBounds bounds z).2 := by
  rw [planZoom] at ht
  obtain ⟨x, hx, hfm⟩ := List.mem_flatMap.1 ht
  obtain ⟨yG, hy, hopt⟩ := List.mem_filterMap.1 hfm
  rw [mem_intRange] at hx hy
  by_cases hd : onDisk (z, x, 2 ^ z - 1 - yG)
  · simp [hd] at hopt
  · simp only [hd, Bool.false_eq_true, if_false, Option.some.injEq] at hopt
    subst hopt
    exact ⟨rfl, rfl, hx.1, hx.2, hy.1, hy.2⟩

lemma planZoom_paths_nodup (bounds : ℝ × ℝ × ℝ × ℝ) (onDisk : ℕ × ℤ × ℤ → Bool) (z : ℕ) :
    ((planZoom bounds onDisk z).map FetchTask.filePath).Nodup := by
  rw [planZoom, List.map_flatMap, List.nodup_flatMap]
  constructor
  · intro x hx
    rw [List.map_filterMap]
    refine List.Nodup.filterMap ?_ (intRange_nodup _ _)
    intro a a' b hb hb'
    rw [Option.mem_def] at hb hb'
    by_cases hd : onDisk (z, x, 2 ^ z - 1 - a)
    · simp [hd] at hb
    · simp only [hd, Bool.false_eq_true, if_false, Option.map_some', Option.some.injEq] at hb
      by_cases hd' : onDisk (z, x, 2 ^ z - 1 - a')
      · simp [hd'] at hb'
      · simp only [hd', Bool.false_eq_true, if_false, Option.map_some',
          Option.some.injEq] at hb'
        rw [← hb'] at hb
        have := congrArg (fun q : ℕ × ℤ × ℤ => q.2.2) hb
        simp only at this
        omega
  · refine (intRange_nodup _ _).imp ?_
    intro x x' hne b hb hb'
    simp only [List.mem_map, List.mem_filterMap] at hb hb'
    obtain ⟨t, ⟨a, ha, hopt⟩, rfl⟩ := hb
    obtain ⟨t', ⟨a', ha', hopt'⟩, hpath⟩ := hb'
    by_cases hd : onDisk (z, x, 2 ^ z - 1 - a)
    · simp [hd] at hopt
    · simp only [hd, Bool.false_eq_true, if_false, Option.some.injEq] at hopt
      by_cases hd' : onDisk (z, x', 2 ^ z - 1 - a')
      · simp [hd'] at hopt'
      · simp only [hd', Bool.false_eq_true, if_false, Option.some.injEq] at hopt'
        subst hopt
        subst hopt'
        exact hne (congrArg (fun q : ℕ × ℤ × ℤ => q.2.1) hpath.symm)

lemma planZoom_path_fst {bounds : ℝ × ℝ × ℝ × ℝ} {onDisk : ℕ × ℤ × ℤ → Bool} {z : ℕ}
    {p : ℕ × ℤ × ℤ} (hp : p ∈ (planZoom bounds onDisk z).map FetchTask.filePath) :
    p.1 = z := by
  obtain ⟨t, ht, rfl⟩ := List.mem_map.1 hp
  rw [(planZoom_task_fields ht).2.1]

/-! ### Claim theorems: planner -/

/-- Claim C5: for every bounding box with `min_lon < max_lon` and
`min_lat < max_lat` and every zoom range, a single planning pass emits no
two tasks with the same destination path, and a zoom level whose clamped
x range or y range is empty contributes zero tasks. -/
theorem plan_no_duplicate_paths (bounds : ℝ × ℝ × ℝ × ℝ) (onDisk : ℕ × ℤ × ℤ → Bool)
    (zMin zMax : ℕ) (hlon : bounds.1 < bounds.2.2.1) (hlat : bounds.2.1 < bounds.2.2.2) :
    ((plan bounds onDisk zMin zMax).map FetchTask.filePath).Nodup ∧
    ∀ z : ℕ, ((xBounds bounds z).2 < (xBounds bounds z).1 ∨
        (yBounds bounds z).2 < (yBounds bounds z).1) →
      planZoom bounds onDisk z = [] := by
  constructor
  · rw [plan, List.map_flatMap, List.nodup_flatMap]
    refine ⟨fun z _ => planZoom_paths_nodup bounds onDisk z, (pyRange_nodup _ _).imp ?_⟩
    intro z z' hne p hp hp'
    exact hne ((planZoom_path_fst hp).symm.trans (planZoom_path_fst hp'))
  · intro z hz
    rw [planZoom]
    rcases hz with hz | hz
    · rw [intRange_eq_nil hz]
      rfl
    · rw [List.flatMap_eq_nil_iff]
      intro x _
      rw [intRange_eq_nil hz]
      rfl

/-- Witness for C5 at a concrete valid bounding box, with nothing on disk. -/
theorem plan_no_duplicate_paths_witness :
    (((0, 0, 90, 45) : ℝ × ℝ × ℝ × ℝ).1 < ((0, 0, 90, 45) : ℝ × ℝ × ℝ × ℝ).2.2.1 ∧
     ((0, 0, 90, 45) : ℝ × ℝ × ℝ × ℝ).2.1 < ((0, 0, 90, 45) : ℝ × ℝ × ℝ × ℝ).2.2.2) ∧
    ((plan (0, 0, 90, 45) (fun _ => false) 0 9).map FetchTask.filePath).Nodup :=
  ⟨⟨by norm_num, by norm_num⟩,
    (plan_no_duplicate_paths (0, 0, 90, 45) (fun _ => false) 0 9
      (by norm_num) (by norm_num)).1⟩

/-- Claim C10: every task the planner emits has in-range coordinates: native
x and y in `[0, 2^z - 1]` and stored row `y_tms = (2^z - 1) - y_google` also
in `[0, 2^z - 1]`, because the planner clamps both tile ranges to
`[0, n_tiles - 1]` before enumerating, even for boundary inputs where the
raw projection alone would be out of range. -/
theorem plan_tasks_in_range (bounds : ℝ × ℝ × ℝ × ℝ) (onDisk : ℕ × ℤ × ℤ → Bool)
    (zMin zMax : ℕ) (t : FetchTask) (ht : t ∈ plan bounds onDisk zMin zMax) :
    0 ≤ t.x ∧ t.x ≤ 2 ^ t.z - 1 ∧
    0 ≤ t.yGoogle ∧ t.yGoogle ≤ 2 ^ t.z - 1 ∧
    t.filePath = (t.z, t.x, 2 ^ t.z - 1 - t.yGoogle) ∧
    0 ≤ 2 ^ t.z - 1 - t.yGoogle ∧ 2 ^ t.z - 1 - t.yGoogle ≤ 2 ^ t.z - 1 := by
  rw [plan] at ht
  obtain ⟨z, hz, htz⟩ := List.mem_flatMap.1 ht
  obtain ⟨h1, h2, h3, h4, h5, h6⟩ := planZoom_task_fields htz
  subst h1
  have hx0 : (0 : ℤ) ≤ t.x := le_trans (le_max_left _ _) h3
  have hx1 : t.x ≤ 2 ^ t.z - 1 := le_trans h4 (min_le_left _ _)
  have hy0 : (0 : ℤ) ≤ t.yGoogle := le_trans (le_max_left _ _) h5
  have hy1 : t.yGoogle ≤ 2 ^ t.z - 1 := le_trans h6 (min_le_left _ _)
  exact ⟨hx0, hx1, hy0, hy1, h2, by omega, by omega⟩

/-! ### Claim theorems: fetch executor and error handling -/

/-- Claim C3: `download_task` classifies each outcome exactly: HTTP 200
writes the response bytes to the destination path and yields 1 (Success);
404 or 400 yields 0 (NotFound) with no file written; any other status or a
transport-level exception yields -1 (TransientFailure) with no file written;
and the executor invokes each task exactly once in a run (attempted equals
the number of tasks, with no retry loop). -/
theorem download_task_classification (fs : FileStore) (t : FetchTask) (body : Bytes)
    (status : ℕ) :
    download_task (.response 200 body false) fs t =
      (1, fun p => if p = t.filePath then some body else fs p) ∧
    (status = 404 ∨ status = 400 → download_task (.response status body false) fs t = (0, fs)) ∧
    (status ≠ 200 → status ≠ 404 → status ≠ 400 →
      download_task (.response status body false) fs t = (-1, fs)) ∧
    download_task .netFailure fs t = (-1, fs) ∧
    (∀ (env : FetchTask → TaskEnv) (tasks : List FetchTask),
      (execute env fs tasks).1 = tasks.length) := by
  refine ⟨rfl, fun h => ?_, fun h1 h2 h3 => ?_, rfl, fun env tasks => execute_attempted _ _ _⟩
  · rcases h with h | h <;> simp [download_task, h]
  · simp [download_task, h1, h2, h3]

/-- Witness for C3 at concrete inputs: a 404 response on a concrete task
yields outcome 0 and leaves the (empty) file store unchanged. -/
theorem download_task_classification_witness :
    download_task (.response 404 [] false) (fun _ => none : FileStore) ⟨0, 0, 0, (0, 0, 0)⟩ =
      (0, (fun _ => none : FileStore)) :=
  (download_task_classification (fun _ => none) ⟨0, 0, 0, (0, 0, 0)⟩ [] 404).2.1 (Or.inl rfl)

/-- Claim C4: against an all-404 fetch the executor reports zero successes,
attempts every task and writes nothing; against an all-200 fetch with fixed
bytes every destination file afterwards holds exactly those bytes and the
success count equals the task count; and in general attempted equals the
number of tasks with no task double-counted. -/
theorem execute_aggregate (tasks : List FetchTask) (fs : FileStore) (body : Bytes) :
    execute (fun _ => .response 404 body false) fs tasks = (tasks.length, 0, fs) ∧
    (execute (fun _ => .response 200 body false) fs tasks).2.1 = tasks.length ∧
    (∀ t ∈ tasks,
      (execute (fun _ => .response 200 body false) fs tasks).2.2 t.filePath = some body) ∧
    (∀ env : FetchTask → TaskEnv, (execute env fs tasks).1 = tasks.length) ∧
    (∀ env : FetchTask → TaskEnv, (execute env fs tasks).2.1 ≤ tasks.length) := by
  refine ⟨?_, ?_, fun t ht => ?_, fun env => execute_attempted _ _ _, fun env => ?_⟩
  · simpa using foldl_execStep_404 body tasks (0, 0, fs)
  · simpa using (foldl_execStep_200 body tasks (0, 0, fs)).1
  · have h := (foldl_execStep_200 body tasks (0, 0, fs)).2 t.filePath
    have hmem : t.filePath ∈ tasks.map FetchTask.filePath := List.mem_map_of_mem _ ht
    simpa [execute, hmem] using h
  · simpa using foldl_execStep_snd_le env tasks (0, 0, fs)

/-- Witness for C4: on a singleton task list with an all-200 fetch of bytes
`[7]`, the destination file afterwards holds `[7]`. -/
theorem execute_aggregate_witness :
    (execute (fun _ => .response 200 [7] false) (fun _ => none : FileStore)
        [⟨0, 0, 0, (0, 0, 0)⟩]).2.2 (0, 0, 0) = some [7] :=
  (execute_aggregate [⟨0, 0, 0, (0, 0, 0)⟩] (fun _ => none) [7]).2.2.1
    ⟨0, 0, 0, (0, 0, 0)⟩ (List.mem_singleton.mpr rfl)

/-- Claim C7: a filesystem fault while writing a task's destination file is
caught inside that task (the `except Exception` of line 62), counted as a
failure (-1) for that task only with no write, and the executor still
processes every task in the list: the run does not crash. -/
theorem download_task_write_fault_isolated (fs : FileStore) (t : FetchTask) (body : Bytes)
    (env : FetchTask → TaskEnv) (tasks : List FetchTask) :
    download_task (.response 200 body true) fs t = (-1, fs) ∧
    (execute env fs tasks).1 = tasks.length :=
  ⟨rfl, execute_attempted env fs tasks⟩

/-- Claim C8: inside the guarded projection block (lines 42-46), whenever the
argument of `math.log` is nonpositive — the case where `math.log` raises
`ValueError` — the fallback `y_val = 0` is taken, so the projection yields
native row 0 instead of propagating a math fault. -/
theorem yVal_math_fault_fallback (rad n : ℝ) (h : logArg rad ≤ 0) :
    yVal rad n = 0 ∧ pyTrunc (yVal rad n) = 0 := by
  have h0 : yVal rad n = 0 := by rw [yVal, if_pos h]
  rw [h0]
  exact ⟨rfl, by simp [pyTrunc]⟩

/-- Witness for C8: at `rad = π` the log argument is `-1 ≤ 0` and the
fallback row is 0. -/
theorem yVal_math_fault_fallback_witness :
    logArg Real.pi ≤ 0 ∧ yVal Real.pi 1 = 0 := by
  have harg : logArg Real.pi = -1 := by
    simp [logArg, Real.tan_pi, Real.cos_pi]
  exact ⟨by rw [harg]; norm_num,
    (yVal_math_fault_fallback Real.pi 1 (by rw [harg]; norm_num)).1⟩

/-! ### Analytic bounds for the projection

The clamp constant 85.0511 lies strictly below the exact Mercator limit
`arctan (sinh π) * 180 / π = 85.05112877...`, so the log argument
`tan rad + sec rad` at the clamped north edge is strictly below `e ^ π`.
The chain below establishes this with explicit rational bounds. -/

lemma exp_q_lower :
    (2.193280050723 : ℝ) ≤ Real.exp (157079632679489661923 / 200000000000000000000) := by
  have hq0 : (0:ℝ) ≤ 157079632679489661923 / 200000000000000000000 := by norm_num
  have hq1 : |(157079632679489661923 / 200000000000000000000 : ℝ)| ≤ 1 := by
    rw [abs_of_nonneg hq0]; norm_num
  have h := @Real.exp_bound (157079632679489661923 / 200000000000000000000) hq1 13 (by norm_num)
  rw [abs_of_nonneg hq0] at h
  have h2 := (abs_le.1 h).1
  simp only [Finset.sum_range_succ, Finset.sum_range_zero] at h2
  norm_num [Nat.factorial] at h2
  linarith

lemma exp_pi_lower : (2.193280050723 : ℝ) ^ 4 ≤ Real.exp Real.pi := by
  have h1 : (2.193280050723 : ℝ) ^ 4 ≤
      Real.exp (157079632679489661923 / 200000000000000000000) ^ 4 :=
    pow_le_pow_left₀ (by norm_num) exp_q_lower 4
  have h2 : Real.exp (157079632679489661923 / 200000000000000000000 : ℝ) ^ 4 =
      Real.exp (4 * (157079632679489661923 / 200000000000000000000 : ℝ)) := by
    rw [← Real.exp_nat_mul]
    norm_num
  have h3 : Real.exp (4 * (157079632679489661923 / 200000000000000000000 : ℝ)) ≤
      Real.exp Real.pi := by
    rw [Real.exp_le_exp]
    have hp := Real.pi_gt_d20
    have he : (3.14159265358979323846 : ℝ) = 314159265358979323846 / 100000000000000000000 := by
      norm_num
    rw [he] at hp
    linarith
  linarith

lemma logArg_edge_lt_exp_pi :
    logArg (85.0511 * Real.pi / 180) < Real.exp Real.pi := by
  have hrad : (85.0511 : ℝ) * Real.pi / 180 =
      Real.pi / 2 - 2 * (Real.pi * (49489 / 3600000)) := by ring
  set t : ℝ := Real.pi * (49489 / 3600000) with htdef
  have hplo : (314159265358979323846 / 100000000000000000000 : ℝ) < Real.pi := by
    have hp := Real.pi_gt_d20
    have he : (3.14159265358979323846 : ℝ) = 314159265358979323846 / 100000000000000000000 := by
      norm_num
    rw [he] at hp
    exact hp
  have hphi : Real.pi < 314159265358979323847 / 100000000000000000000 := by
    have hp := Real.pi_lt_d20
    have he : (3.14159265358979323847 : ℝ) = 314159265358979323847 / 100000000000000000000 := by
      norm_num
    rw [he] at hp
    exact hp
  have ht0 : 0 < t := by
    rw [htdef]
    positivity
  have htlo : (43187299675 / 1000000000000 : ℝ) ≤ t := by
    rw [htdef]
    nlinarith
  have hthi : t ≤ (43187299676 / 1000000000000 : ℝ) := by
    rw [htdef]
    nlinarith
  have htabs : |t| ≤ 1 := by
    rw [abs_of_nonneg ht0.le]
    linarith
  have hsinb := Real.sin_bound htabs
  have hcosb := Real.cos_bound htabs
  rw [abs_of_nonneg ht0.le] at hsinb hcosb
  have ht2 : (43187299675 / 1000000000000 : ℝ) ^ 2 ≤ t ^ 2 :=
    pow_le_pow_left₀ (by norm_num) htlo 2
  have ht3 : t ^ 3 ≤ (43187299676 / 1000000000000 : ℝ) ^ 3 :=
    pow_le_pow_left₀ ht0.le hthi 3
  have ht4 : t ^ 4 ≤ (43187299676 / 1000000000000 : ℝ) ^ 4 :=
    pow_le_pow_left₀ ht0.le hthi 4
  have hsin_lo : (43187299675 / 1000000000000 : ℝ) -
      (43187299676 / 1000000000000 : ℝ) ^ 3 / 6 -
      (43187299676 / 1000000000000 : ℝ) ^ 4 * (5 / 96) ≤ Real.sin t := by
    have h1 := (abs_le.1 hsinb).1
    linarith
  have hcos_hi : Real.cos t ≤ 1 - (43187299675 / 1000000000000 : ℝ) ^ 2 / 2 +
      (43187299676 / 1000000000000 : ℝ) ^ 4 * (5 / 96) := by
    have h1 := (abs_le.1 hcosb).2
    linarith
  have hA0 : (0:ℝ) ≤ (43187299675 / 1000000000000 : ℝ) -
      (43187299676 / 1000000000000 : ℝ) ^ 3 / 6 -
      (43187299676 / 1000000000000 : ℝ) ^ 4 * (5 / 96) := by norm_num
  have hsin_pos : 0 < Real.sin t := by
    apply Real.sin_pos_of_pos_of_lt_pi ht0
    nlinarith
  have hcos_pos : 0 < Real.cos t := by
    apply Real.cos_pos_of_mem_Ioo
    constructor
    · nlinarith
    · nlinarith
  have hmain : Real.cos t < Real.exp Real.pi * Real.sin t := by
    have hKA : (1 : ℝ) - (43187299675 / 1000000000000 : ℝ) ^ 2 / 2 +
        (43187299676 / 1000000000000 : ℝ) ^ 4 * (5 / 96) <
        (2.193280050723 : ℝ) ^ 4 *
          ((43187299675 / 1000000000000 : ℝ) -
           (43187299676 / 1000000000000 : ℝ) ^ 3 / 6 -
           (43187299676 / 1000000000000 : ℝ) ^ 4 * (5 / 96)) := by norm_num
    have hstep : (2.193280050723 : ℝ) ^ 4 *
        ((43187299675 / 1000000000000 : ℝ) -
         (43187299676 / 1000000000000 : ℝ) ^ 3 / 6 -
         (43187299676 / 1000000000000 : ℝ) ^ 4 * (5 / 96)) ≤
        Real.exp Real.pi * Real.sin t :=
      mul_le_mul exp_pi_lower hsin_lo hA0 (Real.exp_pos _).le
    linarith
  have hid : logArg (Real.pi / 2 - 2 * t) = Real.cos t / Real.sin t := by
    rw [logArg, Real.tan_eq_sin_div_cos, Real.cos_pi_div_two_sub, Real.sin_pi_div_two_sub,
      Real.sin_two_mul, Real.cos_two_mul]
    field_simp
    ring
  rw [hrad, hid, div_lt_iff₀ hsin_pos]
  exact hmain

lemma edge_lt_pi_div_two : (85.0511 : ℝ) * Real.pi / 180 < Real.pi / 2 := by
  nlinarith [Real.pi_pos]

lemma cos_edge_pos : 0 < Real.cos (85.0511 * Real.pi / 180) := by
  apply Real.cos_pos_of_mem_Ioo
  constructor
  · have := Real.pi_pos
    nlinarith
  · exact edge_lt_pi_div_two

lemma logArg_le_logArg_edge {r : ℝ} (h0 : 0 ≤ r) (h1 : r ≤ 85.0511 * Real.pi / 180) :
    logArg r ≤ logArg (85.0511 * Real.pi / 180) := by
  have hedge2 := edge_lt_pi_div_two
  have htan : Real.tan r ≤ Real.tan (85.0511 * Real.pi / 180) := by
    rcases eq_or_lt_of_le h1 with he | hlt
    · rw [he]
    · exact (Real.tan_lt_tan_of_nonneg_of_lt_pi_div_two h0 hedge2 hlt).le
  have hcos : Real.cos (85.0511 * Real.pi / 180) ≤ Real.cos r := by
    apply Real.cos_le_cos_of_nonneg_of_le_pi h0 ?_ h1
    nlinarith [Real.pi_pos]
  have hsec : 1 / Real.cos r ≤ 1 / Real.cos (85.0511 * Real.pi / 180) :=
    one_div_le_one_div_of_le cos_edge_pos hcos
  rw [logArg, logArg]
  linarith

lemma one_le_logArg {r : ℝ} (h0 : 0 ≤ r) (hr : r < Real.pi / 2) : 1 ≤ logArg r := by
  have hcpos : 0 < Real.cos r := by
    apply Real.cos_pos_of_mem_Ioo
    constructor
    · have := Real.pi_pos
      nlinarith
    · exact hr
  have htan : 0 ≤ Real.tan r := Real.tan_nonneg_of_nonneg_of_le_pi_div_two h0 hr.le
  have hsec : 1 ≤ 1 / Real.cos r := by
    rw [le_div_iff₀ hcpos]
    simpa using Real.cos_le_one r
  rw [logArg]
  linarith

lemma one_lt_logArg {r : ℝ} (h0 : 0 < r) (hr : r < Real.pi / 2) : 1 < logArg r := by
  have hcpos : 0 < Real.cos r := by
    apply Real.cos_pos_of_mem_Ioo
    constructor
    · have := Real.pi_pos
      nlinarith
    · exact hr
  have htan : 0 < Real.tan r := Real.tan_pos_of_pos_of_lt_pi_div_two h0 hr
  have hsec : 1 ≤ 1 / Real.cos r := by
    rw [le_div_iff₀ hcpos]
    simpa using Real.cos_le_one r
  rw [logArg]
  linarith

lemma logArg_neg_eq_inv {r : ℝ} (hc : Real.cos r ≠ 0) : logArg (-r) = (logArg r)⁻¹ := by
  have hmul : logArg r * logArg (-r) = 1 := by
    rw [logArg, logArg, Real.tan_neg, Real.cos_neg, Real.tan_eq_sin_div_cos]
    have hsc := Real.sin_sq_add_cos_sq r
    field_simp
    linear_combination (-Real.cos r) * hsc
  exact (inv_eq_of_mul_eq_one_right hmul).symm

lemma logArg_mem {lat : ℝ} (h1 : -85.0511 ≤ lat) (h2 : lat ≤ 85.0511) :
    0 < logArg (lat * Real.pi / 180) ∧
    Real.exp (-Real.pi) < logArg (lat * Real.pi / 180) ∧
    logArg (lat * Real.pi / 180) < Real.exp Real.pi := by
  have hπ := Real.pi_pos
  have hexp1 : Real.exp (-Real.pi) < 1 := Real.exp_lt_one_iff.2 (by linarith)
  have hexp2 : (1:ℝ) < Real.exp Real.pi := by
    rw [← Real.exp_zero]
    exact Real.exp_lt_exp.2 hπ
  rcases le_or_lt 0 lat with hpos | hneg
  · have hr0 : 0 ≤ lat * Real.pi / 180 := by positivity
    have hrle : lat * Real.pi / 180 ≤ 85.0511 * Real.pi / 180 := by nlinarith
    have hrlt : lat * Real.pi / 180 < Real.pi / 2 := lt_of_le_of_lt hrle edge_lt_pi_div_two
    have hge1 := one_le_logArg hr0 hrlt
    have hlt := lt_of_le_of_lt (logArg_le_logArg_edge hr0 hrle) logArg_edge_lt_exp_pi
    exact ⟨by linarith, by linarith, hlt⟩
  · have hlat0 : 0 < -lat := by linarith
    have heq : lat * Real.pi / 180 = -((-lat) * Real.pi / 180) := by ring
    have hs0 : 0 < (-lat) * Real.pi / 180 := by positivity
    have hsle : (-lat) * Real.pi / 180 ≤ 85.0511 * Real.pi / 180 := by nlinarith
    have hslt : (-lat) * Real.pi / 180 < Real.pi / 2 := lt_of_le_of_lt hsle edge_lt_pi_div_two
    have hcpos : 0 < Real.cos ((-lat) * Real.pi / 180) := by
      apply Real.cos_pos_of_mem_Ioo
      constructor
      · nlinarith
      · exact hslt
    have hge1 := one_le_logArg hs0.le hslt
    have hlt := lt_of_le_of_lt (logArg_le_logArg_edge hs0.le hsle) logArg_edge_lt_exp_pi
    have hainv : logArg (lat * Real.pi / 180) = (logArg ((-lat) * Real.pi / 180))⁻¹ := by
      rw [heq]
      exact logArg_neg_eq_inv hcpos.ne'
    rw [hainv]
    have hapos : 0 < logArg ((-lat) * Real.pi / 180) := by linarith
    refine ⟨inv_pos.2 hapos, ?_, ?_⟩
    · rw [Real.exp_neg]
      exact inv_lt_inv_of_lt hapos hlt
    · have hle1 : (logArg ((-lat) * Real.pi / 180))⁻¹ ≤ 1 := by
        rw [inv_le_one_iff₀]
        right
        exact hge1
      linarith

/-! ### Projection helper lemmas -/

lemma clampLat_mem (lat : ℝ) : -85.0511 ≤ clampLat lat ∧ clampLat lat ≤ 85.0511 := by
  rw [clampLat]
  exact ⟨le_max_left _ _, max_le (by norm_num) (min_le_left _ _)⟩

lemma clampLat_eq_self {lat : ℝ} (h1 : -85.0511 ≤ lat) (h2 : lat ≤ 85.0511) :
    clampLat lat = lat := by
  rw [clampLat, min_eq_right h2, max_eq_right h1]

lemma pyTrunc_eq_floor {r : ℝ} (h : 0 ≤ r) : pyTrunc r = ⌊r⌋ := if_pos h

lemma pyTrunc_eq_zero {r : ℝ} (h0 : 0 ≤ r) (h1 : r < 1) : pyTrunc r = 0 := by
  rw [pyTrunc_eq_floor h0]
  exact Int.floor_eq_zero_iff.2 ⟨h0, h1⟩

lemma pyTrunc_eq_one {r : ℝ} (h0 : 1 ≤ r) (h1 : r < 2) : pyTrunc r = 1 := by
  rw [pyTrunc_eq_floor (by linarith)]
  rw [Int.floor_eq_iff]
  constructor
  · exact_mod_cast h0
  · push_cast
    linarith

lemma yVal_bounds {lat : ℝ} (h1 : -85.0511 ≤ lat) (h2 : lat ≤ 85.0511) {n : ℝ} (hn : 0 < n) :
    0 < yVal (lat * Real.pi / 180) n ∧ yVal (lat * Real.pi / 180) n < n := by
  obtain ⟨hpos, hlo, hhi⟩ := logArg_mem h1 h2
  have hπ := Real.pi_pos
  rw [yVal, if_neg (not_le.2 hpos)]
  have hL1 : Real.log (logArg (lat * Real.pi / 180)) < Real.pi :=
    (Real.log_lt_iff_lt_exp hpos).2 hhi
  have hL2 : -Real.pi < Real.log (logArg (lat * Real.pi / 180)) :=
    (Real.lt_log_iff_exp_lt hpos).2 hlo
  have hq1 : Real.log (logArg (lat * Real.pi / 180)) / Real.pi < 1 := (div_lt_one hπ).2 hL1
  have hq2 : -1 < Real.log (logArg (lat * Real.pi / 180)) / Real.pi := by
    rw [lt_div_iff₀ hπ]
    linarith
  constructor
  · apply mul_pos (by linarith) hn
  · calc (1 - Real.log (logArg (lat * Real.pi / 180)) / Real.pi) / 2 * n
        < 1 * n := by
          apply mul_lt_mul_of_pos_right (by linarith) hn
    _ = n := one_mul n

/-! ### Claim theorems: projection -/

/-- Claim C6: for every latitude, every longitude in `[-180, 180]` and every
zoom, the projection clamps the latitude into `[-85.0511, 85.0511]` before
any trigonometric use and returns `x = floor((lon + 180) / 360 * 2^z)` and
`yNative = floor((1 - ln(tan rad + sec rad) / π) / 2 * 2^z)` where `rad` is
the clamped latitude in radians (`sec rad` written as `1 / cos rad`). -/
theorem latlon2xy_floor_formula (lat lon : ℝ) (z : ℕ)
    (hlon1 : -180 ≤ lon) (hlon2 : lon ≤ 180) :
    latlon2xy lat lon z =
      (⌊(lon + 180) / 360 * 2 ^ z⌋,
       ⌊(1 - Real.log (Real.tan (clampLat lat * Real.pi / 180) +
           1 / Real.cos (clampLat lat * Real.pi / 180)) / Real.pi) / 2 * 2 ^ z⌋) := by
  obtain ⟨hc1, hc2⟩ := clampLat_mem lat
  have hn : (0:ℝ) < 2 ^ z := by positivity
  obtain ⟨hy0, hy1⟩ := yVal_bounds hc1 hc2 hn
  obtain ⟨hpos, -, -⟩ := logArg_mem hc1 hc2
  simp only [latlon2xy, Prod.mk.injEq]
  constructor
  · exact pyTrunc_eq_floor (mul_nonneg (by linarith) hn.le)
  · rw [pyTrunc_eq_floor hy0.le]
    congr 1
    rw [yVal, if_neg (not_le.2 hpos), logArg]

/-- Witness for C6 at `lat = 0, lon = 0, z = 0`. -/
theorem latlon2xy_floor_formula_witness :
    (-180 ≤ (0:ℝ) ∧ (0:ℝ) ≤ 180) ∧
    latlon2xy 0 0 0 =
      (⌊((0:ℝ) + 180) / 360 * 2 ^ (0:ℕ)⌋,
       ⌊(1 - Real.log (Real.tan (clampLat 0 * Real.pi / 180) +
           1 / Real.cos (clampLat 0 * Real.pi / 180)) / Real.pi) / 2 * 2 ^ (0:ℕ)⌋) :=
  ⟨⟨by norm_num, by norm_num⟩, latlon2xy_floor_formula 0 0 0 (by norm_num) (by norm_num)⟩

/-- Claim C1 counterexample: at `lat = 0` (inside the clamp range),
`lon = 180` (inside `[-180, 180]`) and `z = 0` the projection returns
`x = 1`, which is outside `[0, 2^0 - 1] = [0, 0]`; the claim as stated
fails at `lon = 180`. -/
theorem latlon2xy_lon180_out_of_range :
    ((-85.0511 ≤ (0:ℝ)) ∧ ((0:ℝ) ≤ 85.0511) ∧ (-180 ≤ (180:ℝ)) ∧ ((180:ℝ) ≤ 180)) ∧
    (latlon2xy 0 180 0).1 = 1 ∧ ¬((latlon2xy 0 180 0).1 ≤ 2 ^ (0:ℕ) - 1) := by
  have hx : (latlon2xy 0 180 0).1 = 1 := by
    simp only [latlon2xy]
    have h1 : ((180:ℝ) + 180) / 360 * 2 ^ (0:ℕ) = 1 := by norm_num
    rw [h1, pyTrunc_eq_one (le_refl 1) (by norm_num)]
  refine ⟨⟨by norm_num, by norm_num, by norm_num, le_refl _⟩, hx, ?_⟩
  rw [hx]
  decide

/-- Claim C1 amended: for every zoom `z ≥ 0`, every latitude inside the
clamp range `[-85.0511, 85.0511]` and every longitude in the half-open
interval `[-180, 180)`, the projection returns `x ∈ [0, 2^z - 1]` and
`yNative ∈ [0, 2^z - 1]` (at `lon = 180` exactly, `x = 2^z` escapes the
range, so the right boundary must be excluded). -/
theorem latlon2xy_in_range (lat lon : ℝ) (z : ℕ)
    (hlat1 : -85.0511 ≤ lat) (hlat2 : lat ≤ 85.0511)
    (hlon1 : -180 ≤ lon) (hlon2 : lon < 180) :
    0 ≤ (latlon2xy lat lon z).1 ∧ (latlon2xy lat lon z).1 ≤ 2 ^ z - 1 ∧
    0 ≤ (latlon2xy lat lon z).2 ∧ (latlon2xy lat lon z).2 ≤ 2 ^ z - 1 := by
  have hn : (0:ℝ) < 2 ^ z := by positivity
  have hcl : clampLat lat = lat := clampLat_eq_self hlat1 hlat2
  have hx0 : (0:ℝ) ≤ (lon + 180) / 360 * 2 ^ z := mul_nonneg (by linarith) hn.le
  have hx1 : (lon + 180) / 360 * 2 ^ z < 2 ^ z := by
    calc (lon + 180) / 360 * 2 ^ z < 1 * 2 ^ z :=
          mul_lt_mul_of_pos_right (by linarith) hn
    _ = 2 ^ z := one_mul _
  obtain ⟨hy0, hy1⟩ := yVal_bounds hlat1 hlat2 hn
  simp only [latlon2xy, hcl]
  rw [pyTrunc_eq_floor hx0, pyTrunc_eq_floor hy0.le]
  have hfx : ⌊(lon + 180) / 360 * 2 ^ z⌋ < 2 ^ z := by
    rw [Int.floor_lt]
    push_cast
    exact hx1
  have hfy : ⌊yVal (lat * Real.pi / 180) (2 ^ z)⌋ < 2 ^ z := by
    rw [Int.floor_lt]
    push_cast
    exact hy1
  have hfx' := Int.lt_iff_add_one_le.1 hfx
  have hfy' := Int.lt_iff_add_one_le.1 hfy
  exact ⟨Int.floor_nonneg.2 hx0, by linarith, Int.floor_nonneg.2 hy0.le, by linarith⟩

/-- Witness for the amended C1 at `lat = 0, lon = 0, z = 0`. -/
theorem latlon2xy_in_range_witness :
    (-85.0511 ≤ (0:ℝ) ∧ (0:ℝ) ≤ 85.0511 ∧ -180 ≤ (0:ℝ) ∧ (0:ℝ) < 180) ∧
    0 ≤ (latlon2xy 0 0 0).1 ∧ (latlon2xy 0 0 0).1 ≤ 2 ^ 0 - 1 ∧
    0 ≤ (latlon2xy 0 0 0).2 ∧ (latlon2xy 0 0 0).2 ≤ 2 ^ 0 - 1 :=
  ⟨⟨by norm_num, by norm_num, by norm_num, by norm_num⟩,
    latlon2xy_in_range 0 0 0 (by norm_num) (by norm_num) (by norm_num) (by norm_num)⟩

/-! ### Concrete projection values for the configured BOUNDS -/

lemma north_facts {lat : ℝ} (h0 : 0 < lat) (h2 : lat ≤ 85.0511) :
    0 < logArg (lat * Real.pi / 180) ∧
    0 < Real.log (logArg (lat * Real.pi / 180)) ∧
    Real.log (logArg (lat * Real.pi / 180)) < Real.pi := by
  have hπ := Real.pi_pos
  have hr0 : (0:ℝ) < lat * Real.pi / 180 := by positivity
  have hle : lat * Real.pi / 180 ≤ 85.0511 * Real.pi / 180 := by nlinarith
  have hgt1 := one_lt_logArg hr0 (lt_of_le_of_lt hle edge_lt_pi_div_two)
  have hlt := lt_of_le_of_lt (logArg_le_logArg_edge hr0.le hle) logArg_edge_lt_exp_pi
  exact ⟨by linarith, Real.log_pos hgt1, (Real.log_lt_iff_lt_exp (by linarith)).2 hlt⟩

lemma logArg_south_facts {lat : ℝ} (h0 : 0 < lat) (h2 : lat ≤ 85.0511) :
    0 < logArg (-lat * Real.pi / 180) ∧
    Real.log (logArg (-lat * Real.pi / 180)) =
      -Real.log (logArg (lat * Real.pi / 180)) := by
  have hπ := Real.pi_pos
  have hr0 : (0:ℝ) < lat * Real.pi / 180 := by positivity
  have hle : lat * Real.pi / 180 ≤ 85.0511 * Real.pi / 180 := by nlinarith
  have hlt2 : lat * Real.pi / 180 < Real.pi / 2 := lt_of_le_of_lt hle edge_lt_pi_div_two
  have hcpos : 0 < Real.cos (lat * Real.pi / 180) := by
    apply Real.cos_pos_of_mem_Ioo
    exact ⟨by nlinarith, hlt2⟩
  have heq : -lat * Real.pi / 180 = -(lat * Real.pi / 180) := by ring
  have hinv : logArg (-lat * Real.pi / 180) = (logArg (lat * Real.pi / 180))⁻¹ := by
    rw [heq]
    exact logArg_neg_eq_inv hcpos.ne'
  have hga := one_lt_logArg hr0 hlt2
  refine ⟨?_, ?_⟩
  · rw [hinv]
    exact inv_pos.2 (by linarith)
  · rw [hinv, Real.log_inv]

lemma pyTrunc_yVal_north_z0 {lat : ℝ} (h0 : 0 < lat) (h2 : lat ≤ 85.0511) :
    pyTrunc (yVal (lat * Real.pi / 180) (2 ^ (0:ℕ))) = 0 := by
  have hπ := Real.pi_pos
  obtain ⟨ha, hL0, hL1⟩ := north_facts h0 h2
  have hq1 : Real.log (logArg (lat * Real.pi / 180)) / Real.pi < 1 := (div_lt_one hπ).2 hL1
  have hq0 : 0 < Real.log (logArg (lat * Real.pi / 180)) / Real.pi := div_pos hL0 hπ
  rw [yVal, if_neg (not_le.2 ha)]
  rw [show ((2:ℝ) ^ (0:ℕ)) = 1 by norm_num, mul_one]
  exact pyTrunc_eq_zero (by linarith) (by linarith)

lemma pyTrunc_yVal_north_z1 {lat : ℝ} (h0 : 0 < lat) (h2 : lat ≤ 85.0511) :
    pyTrunc (yVal (lat * Real.pi / 180) (2 ^ (1:ℕ))) = 0 := by
  have hπ := Real.pi_pos
  obtain ⟨ha, hL0, hL1⟩ := north_facts h0 h2
  have hq1 : Real.log (logArg (lat * Real.pi / 180)) / Real.pi < 1 := (div_lt_one hπ).2 hL1
  have hq0 : 0 < Real.log (logArg (lat * Real.pi / 180)) / Real.pi := div_pos hL0 hπ
  rw [yVal, if_neg (not_le.2 ha)]
  rw [show ((2:ℝ) ^ (1:ℕ)) = 2 by norm_num, div_mul_cancel₀ _ (two_ne_zero)]
  exact pyTrunc_eq_zero (by linarith) (by linarith)

lemma pyTrunc_yVal_south_z0 {lat : ℝ} (h0 : 0 < lat) (h2 : lat ≤ 85.0511) :
    pyTrunc (yVal (-lat * Real.pi / 180) (2 ^ (0:ℕ))) = 0 := by
  have hπ := Real.pi_pos
  obtain ⟨-, hL0, hL1⟩ := north_facts h0 h2
  obtain ⟨hapos, hlog⟩ := logArg_south_facts h0 h2
  have hq1 : Real.log (logArg (lat * Real.pi / 180)) / Real.pi < 1 := (div_lt_one hπ).2 hL1
  have hq0 : 0 < Real.log (logArg (lat * Real.pi / 180)) / Real.pi := div_pos hL0 hπ
  rw [yVal, if_neg (not_le.2 hapos), hlog, neg_div, sub_neg_eq_add]
  rw [show ((2:ℝ) ^ (0:ℕ)) = 1 by norm_num, mul_one]
  exact pyTrunc_eq_zero (by linarith) (by linarith)

lemma pyTrunc_yVal_south_z1 {lat : ℝ} (h0 : 0 < lat) (h2 : lat ≤ 85.0511) :
    pyTrunc (yVal (-lat * Real.pi / 180) (2 ^ (1:ℕ))) = 1 := by
  have hπ := Real.pi_pos
  obtain ⟨-, hL0, hL1⟩ := north_facts h0 h2
  obtain ⟨hapos, hlog⟩ := logArg_south_facts h0 h2
  have hq1 : Real.log (logArg (lat * Real.pi / 180)) / Real.pi < 1 := (div_lt_one hπ).2 hL1
  have hq0 : 0 < Real.log (logArg (lat * Real.pi / 180)) / Real.pi := div_pos hL0 hπ
  rw [yVal, if_neg (not_le.2 hapos), hlog, neg_div, sub_neg_eq_add]
  rw [show ((2:ℝ) ^ (1:ℕ)) = 2 by norm_num, div_mul_cancel₀ _ (two_ne_zero)]
  exact pyTrunc_eq_one (by linarith) (by linarith)

lemma latlon2xy_n85_z0 : latlon2xy 85.05 (-180) 0 = (0, 0) := by
  simp only [latlon2xy,
    clampLat_eq_self (show (-85.0511:ℝ) ≤ 85.05 by norm_num) (by norm_num), Prod.mk.injEq]
  refine ⟨?_, pyTrunc_yVal_north_z0 (by norm_num) (by norm_num)⟩
  rw [show ((-180:ℝ) + 180) / 360 * 2 ^ (0:ℕ) = 0 by norm_num]
  exact pyTrunc_eq_zero le_rfl (by norm_num)

lemma latlon2xy_s85_z0 : latlon2xy (-85.05) 180 0 = (1, 0) := by
  simp only [latlon2xy,
    clampLat_eq_self (show (-85.0511:ℝ) ≤ -85.05 by norm_num) (by norm_num), Prod.mk.injEq]
  refine ⟨?_, pyTrunc_yVal_south_z0 (show (0:ℝ) < 85.05 by norm_num) (by norm_num)⟩
  rw [show ((180:ℝ) + 180) / 360 * 2 ^ (0:ℕ) = 1 by norm_num]
  exact pyTrunc_eq_one le_rfl (by norm_num)

lemma latlon2xy_n85_z1 : latlon2xy 85.05 (-180) 1 = (0, 0) := by
  simp only [latlon2xy,
    clampLat_eq_self (show (-85.0511:ℝ) ≤ 85.05 by norm_num) (by norm_num), Prod.mk.injEq]
  refine ⟨?_, pyTrunc_yVal_north_z1 (by norm_num) (by norm_num)⟩
  rw [show ((-180:ℝ) + 180) / 360 * 2 ^ (1:ℕ) = 0 by norm_num]
  exact pyTrunc_eq_zero le_rfl (by norm_num)

lemma latlon2xy_s85_z1 : latlon2xy (-85.05) 180 1 = (2, 1) := by
  simp only [latlon2xy,
    clampLat_eq_self (show (-85.0511:ℝ) ≤ -85.05 by norm_num) (by norm_num), Prod.mk.injEq]
  refine ⟨?_, pyTrunc_yVal_south_z1 (show (0:ℝ) < 85.05 by norm_num) (by norm_num)⟩
  rw [show ((180:ℝ) + 180) / 360 * 2 ^ (1:ℕ) = 2 by norm_num]
  rw [pyTrunc_eq_floor (by norm_num)]
  norm_num

lemma xBounds_BOUNDS_0 : xBounds BOUNDS 0 = (0, 0) := by
  rw [xBounds]
  simp only [BOUNDS]
  rw [latlon2xy_n85_z0, latlon2xy_s85_z0]
  norm_num

lemma yBounds_BOUNDS_0 : yBounds BOUNDS 0 = (0, 0) := by
  rw [yBounds]
  simp only [BOUNDS]
  rw [latlon2xy_n85_z0, latlon2xy_s85_z0]
  norm_num

lemma xBounds_BOUNDS_1 : xBounds BOUNDS 1 = (0, 1) := by
  rw [xBounds]
  simp only [BOUNDS]
  rw [latlon2xy_n85_z1, latlon2xy_s85_z1]
  norm_num

lemma yBounds_BOUNDS_1 : yBounds BOUNDS 1 = (0, 1) := by
  rw [yBounds]
  simp only [BOUNDS]
  rw [latlon2xy_n85_z1, latlon2xy_s85_z1]
  norm_num

/-- Claim C2: with the configured `BOUNDS = (-180, -85.05, 180, 85.05)` and
nothing on disk, zoom 0 plans exactly the single world tile
`x = 0, y = 0`, and zoom 1 plans exactly the four tiles of the 2x2 grid
(`x ∈ {0, 1}`, native `y ∈ {0, 1}`). -/
theorem planZoom_BOUNDS_z0_z1 :
    planZoom BOUNDS (fun _ => false) 0 = [⟨0, 0, 0, (0, 0, 0)⟩] ∧
    planZoom BOUNDS (fun _ => false) 1 =
      [⟨0, 0, 1, (1, 0, 1)⟩, ⟨0, 1, 1, (1, 0, 0)⟩,
       ⟨1, 0, 1, (1, 1, 1)⟩, ⟨1, 1, 1, (1, 1, 0)⟩] := by
  constructor
  · simp only [planZoom, xBounds_BOUNDS_0, yBounds_BOUNDS_0]
    decide
  · simp only [planZoom, xBounds_BOUNDS_1, yBounds_BOUNDS_1]
    decide

/-! ### Concrete projection values for the C10 witness bounding box -/

lemma latlon2xy_45_0 : latlon2xy 45 0 0 = (0, 0) := by
  simp only [latlon2xy,
    clampLat_eq_self (show (-85.0511:ℝ) ≤ 45 by norm_num) (by norm_num), Prod.mk.injEq]
  refine ⟨?_, pyTrunc_yVal_north_z0 (by norm_num) (by norm_num)⟩
  rw [show ((0:ℝ) + 180) / 360 * 2 ^ (0:ℕ) = 1 / 2 by norm_num]
  exact pyTrunc_eq_zero (by norm_num) (by norm_num)

lemma latlon2xy_0_90 : latlon2xy 0 90 0 = (0, 0) := by
  simp only [latlon2xy,
    clampLat_eq_self (show (-85.0511:ℝ) ≤ 0 by norm_num) (by norm_num), Prod.mk.injEq]
  constructor
  · rw [show ((90:ℝ) + 180) / 360 * 2 ^ (0:ℕ) = 3 / 4 by norm_num]
    exact pyTrunc_eq_zero (by norm_num) (by norm_num)
  · rw [show (0:ℝ) * Real.pi / 180 = 0 by ring]
    have harg : logArg 0 = 1 := by
      rw [logArg, Real.tan_zero, Real.cos_zero]
      norm_num
    rw [yVal, harg, Real.log_one, if_neg (by norm_num)]
    rw [show (1 - (0:ℝ) / Real.pi) / 2 * 2 ^ (0:ℕ) = 1 / 2 by rw [zero_div]; norm_num]
    exact pyTrunc_eq_zero (by norm_num) (by norm_num)

lemma plan_witness_eval :
    plan (0, 0, 90, 45) (fun _ => false) 0 1 = [⟨0, 0, 0, (0, 0, 0)⟩] := by
  have hxb : xBounds (0, 0, 90, 45) 0 = (0, 0) := by
    rw [xBounds]
    norm_num [latlon2xy_45_0, latlon2xy_0_90]
  have hyb : yBounds (0, 0, 90, 45) 0 = (0, 0) := by
    rw [yBounds]
    norm_num [latlon2xy_45_0, latlon2xy_0_90]
  rw [plan]
  rw [show pyRange 0 1 = [0] from by decide]
  simp only [List.flatMap_cons, List.flatMap_nil, List.append_nil]
  simp only [planZoom, hxb, hyb]
  decide

/-- Witness for C10: the single task planned for the box
`(0, 0, 90, 45)` at zoom 0 has in-range coordinates. -/
theorem plan_tasks_in_range_witness :
    (⟨0, 0, 0, (0, 0, 0)⟩ : FetchTask) ∈ plan (0, 0, 90, 45) (fun _ => false) 0 1 ∧
    0 ≤ (⟨0, 0, 0, (0, 0, 0)⟩ : FetchTask).x ∧
    (⟨0, 0, 0, (0, 0, 0)⟩ : FetchTask).x ≤
      2 ^ (⟨0, 0, 0, (0, 0, 0)⟩ : FetchTask).z - 1 := by
  have hmem : (⟨0, 0, 0, (0, 0, 0)⟩ : FetchTask) ∈
      plan (0, 0, 90, 45) (fun _ => false) 0 1 := by
    rw [plan_witness_eval]
    exact List.mem_singleton.mpr rfl
  obtain ⟨h1, h2, -⟩ := plan_tasks_in_range (0, 0, 90, 45) (fun _ => false) 0 1 _ hmem
  exact ⟨hmem, h1, h2⟩

/-- Claim C9: with `min_zoom = 0`, `max_zoom = 2` the emitted descriptor
contains exactly three TileSet entries, one per zoom level, with order
values 0, 1, 2 and units-per-pixel values 156543.03392804062,
78271.51696402031 and 39135.758482010155, each equal to
156543.03392804062 / 2 ^ z. -/
theorem tileSetEntries_zero_two :
    tileSetEntries 0 2 =
      [(0, 156543.03392804062), (1, 78271.51696402031), (2, 39135.758482010155)] ∧
    (tileSetEntries 0 2).length = 3 ∧
    (∀ e ∈ tileSetEntries 0 2, e.2 = 156543.03392804062 / 2 ^ e.1) := by
  refine ⟨?_, ?_, ?_⟩
  · norm_num [tileSetEntries, pyRange, initial_res, List.range_succ]
  · rfl
  · intro e he
    fin_cases he <;> norm_num [initial_res]

end DownLoadMap
